import Mathlib

/-!
Verification of the layered configuration manager (`ccconfig.simple_config.Config`).

The Python value universe (strings, ints, bools, None, lists, dicts) is embedded
as the mutual inductive `Value` / `ValueList` / `EntryList`; a configuration
tree (`EntryList`) is an association list with Python-dict semantics: insertion
order preserved, assignment replaces in place, lookup finds the first entry.
Floating-point values and the `float` converter are outside the embedding.
File access and format parsing are modelled as an external collaborator `FS`,
matching the specification's treatment of format parsers as a capability
`parse(bytes) -> tree`.
-/

namespace CCConfig

mutual

/-- A Python value as it occurs in configuration trees. -/
inductive Value where
  | str (s : String)
  | int (n : Int)
  | bool (b : Bool)
  | null
  | list (xs : ValueList)
  | dict (xs : EntryList)

/-- A Python list of values. -/
inductive ValueList where
  | nil
  | cons (v : Value) (rest : ValueList)

/-- A Python dict from string keys to values, in insertion order. -/
inductive EntryList where
  | nil
  | cons (k : String) (v : Value) (rest : EntryList)

end

/-- A configuration tree is a dict. -/
abbrev Tree := EntryList

namespace EntryList

/-- Python dict lookup `m[k]` / `m.get(k)`: first matching entry. -/
def lookup : EntryList → String → Option Value
  | .nil, _ => none
  | .cons k₀ v₀ rest, k => if k₀ = k then some v₀ else lookup rest k

/-- Python `k in m` for a dict. -/
def containsKey : EntryList → String → Bool
  | .nil, _ => false
  | .cons k₀ _ rest, k => k₀ = k || containsKey rest k

/-- Replace the value stored at every entry with key `k` (position kept). -/
def replace : EntryList → String → Value → EntryList
  | .nil, _, _ => .nil
  | .cons k₀ v₀ rest, k, v =>
    if k₀ = k then .cons k v (replace rest k v) else .cons k₀ v₀ (replace rest k v)

/-- Append a single entry at the end. -/
def push : EntryList → String → Value → EntryList
  | .nil, k, v => .cons k v .nil
  | .cons k₀ v₀ rest, k, v => .cons k₀ v₀ (push rest k v)

/-- Python dict assignment `m[k] = v`: replaces in place when the key is
present (keeping its position), appends otherwise. -/
def set (m : EntryList) (k : String) (v : Value) : EntryList :=
  if m.containsKey k then m.replace k v else m.push k v

/-- The keys, in order. -/
def keys : EntryList → List String
  | .nil => []
  | .cons k _ rest => k :: keys rest

/-- Number of entries. -/
def length : EntryList → Nat
  | .nil => 0
  | .cons _ _ rest => length rest + 1

end EntryList

mutual

/-- Python equality `==` between configuration values: numbers compare across
`bool`/`int` (`True == 1`), lists compare pointwise, dicts compare as mappings
(order-insensitive: same size and every entry of one equal in the other). -/
def pyEq : Value → Value → Bool
  | .str a, .str b => a == b
  | .int a, .int b => a == b
  | .bool a, .bool b => a == b
  | .int a, .bool b => a == (if b then (1 : Int) else 0)
  | .bool a, .int b => (if a then (1 : Int) else 0) == b
  | .null, .null => true
  | .list a, .list b => pyEqList a b
  | .dict a, .dict b => a.length == b.length && pyEqEntries a b
  | _, _ => false

/-- Pointwise Python equality of lists. -/
def pyEqList : ValueList → ValueList → Bool
  | .nil, .nil => true
  | .cons x xs, .cons y ys => pyEq x y && pyEqList xs ys
  | _, _ => false

/-- Every entry of the first dict is present, with a Python-equal value, in
the second. -/
def pyEqEntries : EntryList → EntryList → Bool
  | .nil, _ => true
  | .cons k v rest, b =>
    (match b.lookup k with
     | some w => pyEq v w
     | none => false) && pyEqEntries rest b

end

mutual

/-- `Config._merge_dict(base, override)`: for each entry of `override` in
order, if the key is present in `base` and both values are dicts, recurse;
otherwise the override value replaces the base value. -/
def merge_dict (base : Tree) : Tree → Tree
  | .nil => base
  | .cons k v rest => merge_dict (base.set k (mergeStep (base.lookup k) v)) rest

/-- The value written for one override entry: recursive merge when both the
existing and the overriding value are dicts, the override value otherwise. -/
def mergeStep : Option Value → Value → Value
  | some (.dict bm), .dict om => .dict (merge_dict bm om)
  | _, v => v

end

/-! ### String helpers mirroring the Python string operations used -/

/-- Auxiliary state for splitting: characters still to scan and the current
segment (reversed). -/
def splitAux (c : Char) : List Char → List Char → List String
  | [], acc => [String.mk acc.reverse]
  | x :: xs, acc =>
    if x = c then String.mk acc.reverse :: splitAux c xs []
    else splitAux c xs (x :: acc)

/-- Python `s.split('.')`: `"a.b" ↦ ["a","b"]`, `"" ↦ [""]`, `"a..b" ↦ ["a","","b"]`. -/
def pySplitDot (s : String) : List String :=
  splitAux '.' s.data []

/-- Python `s.lower()` (ASCII case folding). -/
def pyLower (s : String) : String :=
  String.mk (s.data.map Char.toLower)

/-- Is `n` a contiguous sublist of the second argument? -/
def listInfix (n : List Char) : List Char → Bool
  | [] => n.isEmpty
  | x :: xs => n.isPrefixOf (x :: xs) || listInfix n xs

/-- Python `needle in haystack` for strings: substring containment. -/
def pySubstr (needle haystack : String) : Bool :=
  listInfix needle.data haystack.data

/-- Python `s.strip()`: remove leading and trailing whitespace. -/
def pyStrip (s : String) : String :=
  String.mk (((s.data.dropWhile Char.isWhitespace).reverse.dropWhile
    Char.isWhitespace).reverse)

/-- Python `s.startswith(p)`. -/
def pyStartsWith (s p : String) : Bool :=
  p.data.isPrefixOf s.data

/-- Python `s[len(p):]`: drop the first `p.length` characters. -/
def pyDropLen (s p : String) : String :=
  String.mk (s.data.drop p.data.length)

/-! ### Dotted-path traversal -/

/-- A Python-level error: `TypeError`, `KeyError`, `ValueError` and kindred
exceptions raised by an operation; the traversal and coercion code only ever
needs "an exception was raised" (`Except.error ()`). -/
abbrev PyResult (α : Type) := Except Unit α

/-- Python `k not in cur` for an arbitrary value `cur`:
dict → key absence; string → negated substring test; list → negated
membership by `==`; any other value (int/bool/None) raises `TypeError`. -/
def pyNotIn (k : String) : Value → PyResult Bool
  | .dict m => .ok (m.lookup k).isNone
  | .str s => .ok (!pySubstr k s)
  | .list xs => .ok (!go xs)
  | _ => .error ()
where
  /-- Python `k in xs` for a list, comparing with `==`. -/
  go : ValueList → Bool
    | .nil => false
    | .cons x rest => pyEq (.str k) x || go rest

/-- Python `cur[k]` with a string key: dict lookup (`KeyError` when absent);
any non-dict raises `TypeError` (string and list indices must be integers). -/
def pySubscript (cur : Value) (k : String) : PyResult Value :=
  match cur with
  | .dict m =>
    match m.lookup k with
    | some v => .ok v
    | none => .error ()
  | _ => .error ()

/-- Outcome of the traversal loop shared by `Config.get` and
`Config._get_nested`: the final value, an early `return default`, or a
propagating `TypeError`. -/
inductive Walk where
  | found (v : Value)
  | missing
  | raised

/-- The loop `for k in keys: if k not in cur: return default; cur = cur[k]`.
`missing` is the early return (before any cast is applied); `raised` is an
uncaught `TypeError` from `in`/`[]` on a non-mapping intermediate. -/
def getLoop : Value → List String → Walk
  | cur, [] => .found cur
  | cur, k :: ks =>
    match pyNotIn k cur with
    | .error _ => .raised
    | .ok true => .missing
    | .ok false =>
      match pySubscript cur k with
      | .error _ => .raised
      | .ok v => getLoop v ks

/-- `Config._get_nested(config, key)`: walk the dotted key, returning `None`
on a missing segment; a non-mapping intermediate raises. -/
def get_nested (config : Tree) (key : String) : PyResult Value :=
  match getLoop (.dict config) (pySplitDot key) with
  | .found v => .ok v
  | .missing => .ok .null
  | .raised => .error ()

/-! ### Type coercion -/

/-- Python truthiness `bool(val)`: booleans are themselves, numbers are
true iff nonzero, strings/lists/dicts are true iff nonempty, `None` is false. -/
def pyTruthy : Value → Bool
  | .bool b => b
  | .int n => n != 0
  | .str s => !s.isEmpty
  | .list .nil => false
  | .list _ => true
  | .dict .nil => false
  | .dict _ => true
  | .null => false

/-- `Config._convert_bool`: pass real booleans through; map the strings
`true`/`yes`/`1` (case-insensitive) to `True` and `false`/`no`/`0` to
`False`; every other value falls through to `bool(val)` truthiness. -/
def convert_bool (val : Value) : Bool :=
  match val with
  | .bool b => b
  | .str s =>
    let lower_val := pyLower s
    if lower_val = "true" ∨ lower_val = "yes" ∨ lower_val = "1" then true
    else if lower_val = "false" ∨ lower_val = "no" ∨ lower_val = "0" then false
    else pyTruthy (.str s)
  | v => pyTruthy v

/-- Decimal digits to a number, `none` on a non-digit or an empty list. -/
def digitsToNat : List Char → Option Nat
  | [] => none
  | cs => go cs 0
where
  go : List Char → Nat → Option Nat
    | [], acc => some acc
    | c :: rest, acc =>
      if c.isDigit then go rest (acc * 10 + (c.toNat - '0'.toNat)) else none

/-- Python `int(s)` on a string: strip whitespace, optional sign, decimal
digits; `ValueError` otherwise (digit-group underscores are not modelled). -/
def pyParseInt (s : String) : Option Int :=
  match (pyStrip s).data with
  | '-' :: rest => (digitsToNat rest).map (fun n => -(n : Int))
  | '+' :: rest => (digitsToNat rest).map (fun n => (n : Int))
  | cs => (digitsToNat cs).map (fun n => (n : Int))

/-- Python `int(val)`: ints pass through, `True`/`False` become `1`/`0`,
strings are parsed, everything else raises. -/
def pyInt : Value → PyResult Int
  | .int n => .ok n
  | .bool b => .ok (if b then 1 else 0)
  | .str s =>
    match pyParseInt s with
    | some n => .ok n
    | none => .error ()
  | _ => .error ()

mutual

/-- Python `repr` of a value (string escaping inside reprs is not modelled). -/
def pyRepr : Value → String
  | .str s => "\x27" ++ s ++ "\x27"
  | .int n => toString n
  | .bool b => if b then "True" else "False"
  | .null => "None"
  | .list xs => "[" ++ pyReprList xs ++ "]"
  | .dict xs => "\x7b" ++ pyReprEntries xs ++ "\x7d"

/-- Comma-separated reprs of list elements. -/
def pyReprList : ValueList → String
  | .nil => ""
  | .cons x .nil => pyRepr x
  | .cons x rest => pyRepr x ++ ", " ++ pyReprList rest

/-- Comma-separated `key: value` reprs of dict entries. -/
def pyReprEntries : EntryList → String
  | .nil => ""
  | .cons k v .nil => "\x27" ++ k ++ "\x27: " ++ pyRepr v
  | .cons k v rest => "\x27" ++ k ++ "\x27: " ++ pyRepr v ++ ", " ++ pyReprEntries rest

end

/-- Python `str(val)`: strings pass through, other values use their repr. -/
def pyStr : Value → String
  | .str s => s
  | v => pyRepr v

/-- `Config._convert_list`: lists pass through; a string is split on `,` with
each element stripped; `list(dict)` yields the keys; other values raise. -/
def convert_list : Value → PyResult ValueList
  | .list xs => .ok xs
  | .str s => .ok (ofStrings (splitAux ',' s.data []))
  | .dict m => .ok (keysOf m)
  | _ => .error ()
where
  /-- Build a value list of stripped strings. -/
  ofStrings : List String → ValueList
    | [] => .nil
    | s :: rest => .cons (.str (pyStrip s)) (ofStrings rest)
  /-- `list(d)` for a dict: its keys in order. -/
  keysOf : EntryList → ValueList
    | .nil => .nil
    | .cons k _ rest => .cons (.str k) (keysOf rest)

/-- A minimal model of `json.loads` restricted to the scalar literals and flat
string-keyed objects of scalars that configuration strings use; anything
outside that fragment is reported as a parse failure (triggering the
`key=value` fallback of `_convert_dict`). -/
def jsonLoads (s : String) : Option Value :=
  scalar (pyStrip s)
where
  /-- A JSON scalar literal. -/
  scalar (t : String) : Option Value :=
    if t = "null" then some .null
    else if t = "true" then some (.bool true)
    else if t = "false" then some (.bool false)
    else
      match t.data with
      | '"' :: rest =>
        match rest.reverse with
        | '"' :: mid => some (.str (String.mk mid.reverse))
        | _ => none
      | '\x7b' :: rest =>
        match rest.reverse with
        | '\x7d' :: mid => obj (splitAux ',' mid.reverse [])
        | _ => none
      | _ => (pyParseInt t).map Value.int
  /-- A flat object body, one `"key": scalar` item per comma segment. -/
  obj : List String → Option Value
    | [one] =>
      if pyStrip one = "" then some (.dict .nil) else (objGo [one] .nil).map Value.dict
    | items => (objGo items .nil).map Value.dict
  /-- Fold the items into entries, later duplicates winning. -/
  objGo : List String → EntryList → Option EntryList
    | [], acc => some acc
    | item :: rest, acc =>
      match splitAux ':' item.data [] with
      | [kq, vq] =>
        match (pyStrip kq).data with
        | '"' :: kr =>
          match kr.reverse with
          | '"' :: kmid =>
            match scalarItem (pyStrip vq) with
            | some v => objGo rest (acc.set (String.mk kmid.reverse) v)
            | none => none
          | _ => none
        | _ => none
      | _ => none
  /-- A scalar inside an object. -/
  scalarItem (t : String) : Option Value :=
    if t = "null" then some .null
    else if t = "true" then some (.bool true)
    else if t = "false" then some (.bool false)
    else
      match t.data with
      | '"' :: rest =>
        match rest.reverse with
        | '"' :: mid => some (.str (String.mk mid.reverse))
        | _ => none
      | _ => (pyParseInt t).map Value.int

/-- `Config._convert_dict`: dicts pass through; a string is first tried as
JSON, falling back to comma-separated `key=value` pairs with both sides
stripped (`ValueError` when an item does not split into exactly two parts);
other values raise (`dict()` of a scalar or list of strings fails). -/
def convert_dict : Value → PyResult Value
  | .dict m => .ok (.dict m)
  | .str s =>
    match jsonLoads s with
    | some v => .ok v
    | none =>
      match kvPairs (splitAux ',' s.data []) .nil with
      | some entries => .ok (.dict entries)
      | none => .error ()
  | _ => .error ()
where
  /-- The dict comprehension over `item.split('=')` unpacked as `k, v`:
  items inserted in order, later duplicates winning; an item that does not
  split into exactly two parts raises `ValueError`. -/
  kvPairs : List String → EntryList → Option EntryList
    | [], acc => some acc
    | item :: rest, acc =>
      match splitAux '=' item.data [] with
      | [k, v] => kvPairs rest (acc.set (pyStrip k) (.str (pyStrip v)))
      | _ => none

/-- The built-in converters seeded into `_type_converters` at construction:
`int`, `bool`, `str`, `list`, `dict`.  The `float` converter is omitted from
the embedding (floating point is out of scope), and runtime-registered custom
converters are not modelled (no claim exercises them). -/
inductive CastT where
  | toInt
  | toBool
  | toStr
  | toList
  | toDict

/-- `Config._cast_value(val, cast_type)`: `bool` is routed through
`_convert_bool` (and so never raises); the other converters apply their
Python conversion, propagating failures. -/
def cast_value (val : Value) : CastT → PyResult Value
  | .toBool => .ok (.bool (convert_bool val))
  | .toInt => (pyInt val).map .int
  | .toStr => .ok (.str (pyStr val))
  | .toList => (convert_list val).map .list
  | .toDict => convert_dict val

/-- The seeded `_type_converters` name registry (minus `float`). -/
def type_converters (nm : String) : Option CastT :=
  if nm = "int" then some .toInt
  else if nm = "bool" then some .toBool
  else if nm = "str" then some .toStr
  else if nm = "list" then some .toList
  else if nm = "dict" then some .toDict
  else none

/-- `Config.get(key, default, cast)`: dotted traversal; an absent segment
returns the default immediately (without casting it); a found value is cast
when a cast is supplied, a cast failure (or an unknown converter name, which
raises inside the same `try`) yielding the default.  A `TypeError` from
traversing through a non-mapping intermediate propagates. -/
def get (config : Tree) (key : String) (dflt : Value) (cast : Option CastT) :
    PyResult Value :=
  match getLoop (.dict config) (pySplitDot key) with
  | .raised => .error ()
  | .missing => .ok dflt
  | .found cur =>
    match cast with
    | none => .ok cur
    | some c =>
      match cast_value cur c with
      | .ok v => .ok v
      | .error _ => .ok dflt

/-- `Config._set(key, value)`: walk the dotted key creating intermediate
dicts, assign at the last segment.  An existing non-dict intermediate makes
the subsequent subscript or assignment raise `TypeError`; the partial
in-place mutation Python performs before such a raise is not modelled (no
caller observes state after a raised `_set`). -/
def setLoop : Tree → List String → Value → PyResult Tree
  | m, [], _ => .ok m
  | m, [k], v => .ok (m.set k v)
  | m, k :: k' :: ks, v =>
    match m.lookup k with
    | some (.dict sub) =>
      match setLoop sub (k' :: ks) v with
      | .ok sub2 => .ok (m.set k (.dict sub2))
      | .error _ => .error ()
    | some _ => .error ()
    | none =>
      match setLoop .nil (k' :: ks) v with
      | .ok sub2 => .ok (m.set k (.dict sub2))
      | .error _ => .error ()

/-- `Config._set` on the stored tree. -/
def setValue (config : Tree) (key : String) (v : Value) : PyResult Tree :=
  setLoop config (pySplitDot key) v

/-- Discriminate the Python `is None` test. -/
def Value.isNull : Value → Bool
  | .null => true
  | _ => false

/-! ### The `Config` instance state and its operations -/

/-- Generic Python dict lookup for registries keyed by strings. -/
def pyAssocLookup (m : List (String × α)) (k : String) : Option α :=
  match m with
  | [] => none
  | (k₀, v₀) :: rest => if k₀ = k then some v₀ else pyAssocLookup rest k

/-- Does the registry contain the key? -/
def pyAssocContains : List (String × α) → String → Bool
  | [], _ => false
  | (k₀, _) :: rest, k => k₀ = k || pyAssocContains rest k

/-- Replace the value stored at every entry with key `k`, position kept. -/
def pyAssocReplace : List (String × α) → String → α → List (String × α)
  | [], _, _ => []
  | (k₀, v₀) :: rest, k, v =>
    if k₀ = k then (k, v) :: pyAssocReplace rest k v
    else (k₀, v₀) :: pyAssocReplace rest k v

/-- Generic Python dict assignment for registries keyed by strings:
replace in place when present, append otherwise. -/
def pyAssocSet (m : List (String × α)) (k : String) (v : α) : List (String × α) :=
  if pyAssocContains m k then pyAssocReplace m k v else m ++ [(k, v)]

/-- A registered change listener.  A directly registered callback is opaque
and identified by a number; the listener `Config.watch` derives for a dotted
key wraps such a callback. -/
inductive Listener where
  | plain (id : Nat)
  | watcher (key : String) (id : Nat)

/-- What one listener did during a notification round: a plain callback
invoked with `(old, new)`; a watch callback invoked with the changed
`(oldVal, newVal)`; a watch whose value did not change (its inner callback
not invoked); or a listener that raised while reading the trees (caught by
`_notify_change_listeners`, other listeners unaffected). -/
inductive Invo where
  | called (id : Nat) (old new : Tree)
  | watchCalled (id : Nat) (oldVal newVal : Value)
  | watchSkipped (id : Nat)
  | watchRaised (id : Nat)

/-- Run one listener: a `watch`-derived listener reads the dotted key in both
trees with `_get_nested` and invokes its callback only on `!=`. -/
def listenerEvent (l : Listener) (old new : Tree) : Invo :=
  match l with
  | .plain id => .called id old new
  | .watcher key id =>
    match get_nested old key, get_nested new key with
    | .ok ov, .ok nv => if pyEq ov nv then .watchSkipped id else .watchCalled id ov nv
    | _, _ => .watchRaised id

/-- `Config._notify_change_listeners(old, new)`: invoke every registered
listener synchronously in registration order; a raising listener is caught
and does not stop the others. -/
def notify_change_listeners (ls : List (String × Listener)) (old new : Tree) :
    List Invo :=
  ls.map (fun p => listenerEvent p.2 old new)

/-- `Modelled from the spec:` the `ConfigItem` dataclass is referenced by
`Config` (`_config_metadata`, `add_config_item`, `validate_item`,
`validate_all`) but its definition is missing from the repository sources.
Fields follow spec §3: dotted key, description, default value, coercion name,
required flag, allowed choices, numeric bounds (numeric bounds are modelled
over the integers; a `None` default doubles as "no default", as in Python). -/
structure ConfigItem where
  key : String
  description : String
  default : Value
  type : Option String
  required : Bool
  choices : Option ValueList
  minValue : Option Int
  maxValue : Option Int

/-- The mutable state of a `Config` instance: the merged tree, the tracked
`(filepath, priority)` list, the schema metadata registry, and the change
listener registry.  Logging, timing and the auto-reload thread are outside
the embedding. -/
structure ConfigState where
  config_data : Tree
  config_files : List (String × Int)
  config_metadata : List (String × ConfigItem)
  change_listeners : List (String × Listener)

/-- The freshly constructed instance. -/
def ConfigState.empty : ConfigState :=
  { config_data := .nil, config_files := [], config_metadata := [],
    change_listeners := [] }

/-- `Config.add_change_listener(name, callback)`. -/
def add_change_listener (st : ConfigState) (name : String) (l : Listener) :
    ConfigState :=
  { st with change_listeners := pyAssocSet st.change_listeners name l }

/-- `Config.remove_change_listener(name)`: `dict.pop(name, None)`. -/
def remove_change_listener (st : ConfigState) (name : String) : ConfigState :=
  { st with change_listeners := st.change_listeners.filter (fun p => p.1 ≠ name) }

/-- `Config.watch(key, callback)`: register the derived diffing listener
under the reserved name `watch_` + key. -/
def watch (st : ConfigState) (key : String) (id : Nat) : ConfigState :=
  add_change_listener st ("watch_" ++ key) (.watcher key id)

/-- A load-time failure of `Config.load`. -/
inductive LoadErr where
  | fileNotFound
  | unsupportedFormat
  | importErr
  | parseErr

/-- The external file system and format parsers behind `_load_file`, treated
per the specification as a collaborator `parse(bytes) -> tree`:
`isfile` models `os.path.isfile`, and `parse` models `_load_file` on an
existing file (tree on success; `unsupportedFormat` for an unknown
extension, `importErr` for the missing optional YAML dependency,
`parseErr` for malformed content). -/
structure FS where
  isfile : String → Bool
  parse : String → Except LoadErr Tree

/-- Insert before the first strictly-later element of equal or larger
priority.  The element being inserted comes earlier in the unsorted list than
everything already processed, so placing it before equal priorities is
exactly stability. -/
def insertByPriority (x : String × Int) : List (String × Int) → List (String × Int)
  | [] => [x]
  | y :: ys => if x.2 ≤ y.2 then x :: y :: ys else y :: insertByPriority x ys

/-- `self._config_files.sort(key=lambda x: x[1])`: Python's sort is stable
and ascending on the priority; a stable ascending sort of a given list is
unique, so stable insertion sort models it exactly. -/
def sortByPriority : List (String × Int) → List (String × Int)
  | [] => []
  | x :: xs => insertByPriority x (sortByPriority xs)

/-- The rebuild loop of `Config.load`: `new_data = {}` then
`new_data = _merge_dict(new_data, _load_file(f))` over the sorted files,
stopping at the first parse failure. -/
def buildData (fs : FS) : List (String × Int) → Tree → Except LoadErr Tree
  | [], acc => .ok acc
  | (f, _) :: rest, acc =>
    match fs.parse f with
    | .error e => .error e
    | .ok t => buildData fs rest (merge_dict acc t)

/-- `Config.load(filepath, priority)`.  Returns the instance state after the
call together with either the fired notifications or the raised error: a
missing file raises before any mutation; the file list is appended to and
re-sorted before the rebuild, so a parse failure leaves the new entry in the
tracked list while the stored tree stays unchanged; on success the rebuilt
tree replaces the stored tree and every listener is notified with
`(old, new)`. -/
def load (fs : FS) (st : ConfigState) (filepath : String) (priority : Int) :
    ConfigState × Except LoadErr (List Invo) :=
  if fs.isfile filepath = false then (st, .error .fileNotFound)
  else
    let files := sortByPriority (st.config_files ++ [(filepath, priority)])
    match buildData fs files .nil with
    | .error e => ({ st with config_files := files }, .error e)
    | .ok new_data =>
      ({ st with config_files := files, config_data := new_data },
       .ok (notify_change_listeners st.change_listeners st.config_data new_data))

/-- `Config.load_env(prefix)`: collect the environment variables whose name
starts with the prefix, strip the prefix (no dotted expansion, no case
folding), and merge the flat result on top of the current tree.  No
change notification is fired (the method never calls
`_notify_change_listeners`), which the empty invocation list records. -/
def load_env (envVars : List (String × String)) (st : ConfigState) (pref : String) :
    ConfigState × List Invo :=
  ({ st with config_data := merge_dict st.config_data (envGo envVars .nil) }, [])
where
  /-- `for k, v in os.environ.items(): if k.startswith(prefix): ...` -/
  envGo : List (String × String) → EntryList → EntryList
    | [], acc => acc
    | (k, v) :: rest, acc =>
      if pyStartsWith k pref then envGo rest (acc.set (pyDropLen k pref) (.str v))
      else envGo rest acc

/-- The loop of `Config.reload`: call `self.load(filepath)` (default
priority 0) for each remembered filepath, stopping at the first raise. -/
def reloadGo (fs : FS) (st : ConfigState) :
    List String → ConfigState × Except LoadErr (List Invo)
  | [] => (st, .ok [])
  | f :: rest =>
    match load fs st f 0 with
    | (st₁, .error e) => (st₁, .error e)
    | (st₁, .ok inv) =>
      match reloadGo fs st₁ rest with
      | (st₂, .error e) => (st₂, .error e)
      | (st₂, .ok invs) => (st₂, .ok (inv ++ invs))

/-- `Config.reload()`: remember the tracked filepaths (in the current,
priority-sorted list order), clear the list, and re-`load` each one at the
default priority. -/
def reload (fs : FS) (st : ConfigState) :
    ConfigState × Except LoadErr (List Invo) :=
  reloadGo fs { st with config_files := [] } (st.config_files.map Prod.fst)

/-! ### Validation -/

/-- One schema entry of the ad hoc `Config.validate` mechanism, as extracted
by `rules.get("required", False)`, `rules.get("default", None)`,
`rules.get("cast", None)`; a `None` default means "no default", as in
Python. -/
structure Rule where
  required : Bool
  default : Value
  cast : Option CastT

/-- A failure raised by `Config.validate`: the missing-required-key
`ValueError`, the cast-failure `ValueError` (which also covers a `TypeError`
raised by the write-back `_set` inside the same `try`), or an uncaught
`TypeError` escaping from the traversal of `get`/`_set`. -/
inductive ValidateErr where
  | missingRequired (key : String)
  | castFailed (key : String)
  | pyRaised

/-- `Config.validate(schema)`: for each declared key read the current value
with `get(key, default=None)`; a `None` result (absent key or stored `None`)
raises when required, else writes the default if one is declared; a
non-`None` result with a declared cast is coerced and written back. -/
def validate (st : ConfigState) : List (String × Rule) → Except ValidateErr ConfigState
  | [] => .ok st
  | (key, rules) :: rest =>
    match get st.config_data key .null none with
    | .error _ => .error .pyRaised
    | .ok current_val =>
      if current_val.isNull then
        if rules.required then .error (.missingRequired key)
        else if rules.default.isNull then validate st rest
        else
          match setValue st.config_data key rules.default with
          | .ok d₂ => validate { st with config_data := d₂ } rest
          | .error _ => .error .pyRaised
      else
        match rules.cast with
        | none => validate st rest
        | some c =>
          match cast_value current_val c with
          | .error _ => .error (.castFailed key)
          | .ok conv =>
            match setValue st.config_data key conv with
            | .ok d₂ => validate { st with config_data := d₂ } rest
            | .error _ => .error (.castFailed key)

/-- A `validate_item` / `validate_all` error message, by kind (the embedding
abstracts the formatted message strings to their kind). -/
inductive ItemErr where
  | unknownConverter (nm : String)
  | badType
  | notInChoices
  | belowMin
  | aboveMax
  | missingRequired

/-- Python `value in choices` over a list, comparing with `==`. -/
def ValueList.containsPy : ValueList → Value → Bool
  | .nil, _ => false
  | .cons x rest, v => pyEq x v || containsPy rest v

/-- `isinstance(value, (int, float))` and the numeric value used by the range
check; Python booleans are instances of `int` (`True` counts as `1`). -/
def numVal : Value → Option Int
  | .int n => some n
  | .bool b => some (if b then 1 else 0)
  | _ => none

/-- `Config.validate_item(key, value)`: type check through the converter
registry, then membership in `choices`, then numeric bounds; returns
validity together with the error.  A key without metadata is valid. -/
def validate_item (st : ConfigState) (key : String) (value : Value) :
    Bool × Option ItemErr :=
  match pyAssocLookup st.config_metadata key with
  | none => (true, none)
  | some metadata =>
    match typeCheck metadata with
    | some e => (false, some e)
    | none =>
      match choiceCheck metadata with
      | some e => (false, some e)
      | none =>
        match rangeCheck metadata with
        | some e => (false, some e)
        | none => (true, none)
where
  /-- The `metadata.type` coercion attempt (string names resolved through the
  registry; an unknown name is its own error). -/
  typeCheck (metadata : ConfigItem) : Option ItemErr :=
    match metadata.type with
    | none => none
    | some nm =>
      match type_converters nm with
      | none => some (.unknownConverter nm)
      | some conv =>
        match cast_value value conv with
        | .ok _ => none
        | .error _ => some .badType
  /-- `value not in metadata.choices`. -/
  choiceCheck (metadata : ConfigItem) : Option ItemErr :=
    match metadata.choices with
    | none => none
    | some cs => if cs.containsPy value then none else some .notInChoices
  /-- Numeric bounds, applied only to int/bool values. -/
  rangeCheck (metadata : ConfigItem) : Option ItemErr :=
    match numVal value with
    | none => none
    | some n =>
      match metadata.minValue with
      | some lo =>
        if n < lo then some .belowMin
        else
          match metadata.maxValue with
          | some hi => if hi < n then some .aboveMax else none
          | none => none
      | none =>
        match metadata.maxValue with
        | some hi => if hi < n then some .aboveMax else none
        | none => none

/-- `Config.validate_all()`: over every registered metadata item in
registration order, a `None` current value of a required item is recorded as
missing; other values go through `validate_item` and failures are collected
into the error dict.  A `TypeError` escaping from `get` propagates. -/
def validate_all (st : ConfigState) : PyResult (List (String × Option ItemErr)) :=
  go st.config_metadata []
where
  /-- The collection loop over `_config_metadata.items()`. -/
  go : List (String × ConfigItem) → List (String × Option ItemErr) →
      PyResult (List (String × Option ItemErr))
    | [], acc => .ok acc
    | (key, metadata) :: rest, acc =>
      match get st.config_data key .null none with
      | .error _ => .error ()
      | .ok value =>
        if value.isNull then
          if metadata.required then
            go rest (pyAssocSet acc key (some .missingRequired))
          else go rest acc
        else
          match validate_item st key value with
          | (true, _) => go rest acc
          | (false, e) => go rest (pyAssocSet acc key e)

/-- `Config.add_config_item(item)`: register the metadata and, when the item
declares a default, write it into the tree at once via `_set`. -/
def add_config_item (st : ConfigState) (item : ConfigItem) : PyResult ConfigState :=
  let st₁ := { st with config_metadata := pyAssocSet st.config_metadata item.key item }
  if item.default.isNull then .ok st₁
  else
    match setValue st₁.config_data item.key item.default with
    | .ok d => .ok { st₁ with config_data := d }
    | .error _ => .error ()

/-! ### Dict lemmas -/

namespace EntryList

theorem lookup_replace_self : ∀ (m : EntryList) (k : String) (v : Value),
    m.containsKey k = true → (m.replace k v).lookup k = some v
  | .nil, k, v, h => by simp [containsKey] at h
  | .cons k₀ v₀ rest, k, v, h => by
    by_cases hk : k₀ = k
    · simp [replace, hk, lookup]
    · simp [containsKey, hk] at h
      simp [replace, hk, lookup, lookup_replace_self rest k v h]

theorem lookup_replace_ne : ∀ (m : EntryList) (k k' : String) (v : Value),
    k' ≠ k → (m.replace k v).lookup k' = m.lookup k'
  | .nil, _, _, _, _ => rfl
  | .cons k₀ v₀ rest, k, k', v, h => by
    by_cases hk : k₀ = k
    · subst hk
      simp [replace, lookup, Ne.symm h, lookup_replace_ne rest k₀ k' v h]
    · by_cases hk' : k₀ = k'
      · simp [replace, hk, lookup, hk', h]
      · simp [replace, hk, lookup, hk', lookup_replace_ne rest k k' v h]

theorem lookup_push_absent : ∀ (m : EntryList) (k : String) (v : Value),
    m.containsKey k = false → (m.push k v).lookup k = some v
  | .nil, k, v, _ => by simp [push, lookup]
  | .cons k₀ v₀ rest, k, v, h => by
    simp [containsKey] at h
    simp [push, lookup, h.1, lookup_push_absent rest k v h.2]

theorem lookup_push_ne : ∀ (m : EntryList) (k k' : String) (v : Value),
    k' ≠ k → (m.push k v).lookup k' = m.lookup k'
  | .nil, k, k', v, h => by simp [push, lookup, Ne.symm h]
  | .cons k₀ v₀ rest, k, k', v, h => by
    by_cases hk' : k₀ = k'
    · simp [push, lookup, hk']
    · simp [push, lookup, hk', lookup_push_ne rest k k' v h]

/-- Assignment then lookup at the same key finds the assigned value. -/
theorem lookup_set_self (m : EntryList) (k : String) (v : Value) :
    (m.set k v).lookup k = some v := by
  unfold set
  by_cases h : m.containsKey k
  · simp [h, lookup_replace_self m k v h]
  · simp [h, lookup_push_absent m k v (by simpa using h)]

/-- Assignment leaves lookups at other keys unchanged. -/
theorem lookup_set_ne (m : EntryList) (k k' : String) (v : Value) (h : k' ≠ k) :
    (m.set k v).lookup k' = m.lookup k' := by
  unfold set
  by_cases hc : m.containsKey k
  · simp [hc, lookup_replace_ne m k k' v h]
  · simp [hc, lookup_push_ne m k k' v h]

theorem containsKey_eq_isSome_lookup : ∀ (m : EntryList) (k : String),
    m.containsKey k = (m.lookup k).isSome
  | .nil, _ => rfl
  | .cons k₀ v₀ rest, k => by
    by_cases hk : k₀ = k
    · simp [containsKey, lookup, hk]
    · simp [containsKey, lookup, hk, containsKey_eq_isSome_lookup rest k]

theorem lookup_eq_none_of_not_mem_keys : ∀ (m : EntryList) (k : String),
    k ∉ m.keys → m.lookup k = none
  | .nil, _, _ => rfl
  | .cons k₀ v₀ rest, k, h => by
    simp [keys] at h
    simp [lookup, Ne.symm h.1, lookup_eq_none_of_not_mem_keys rest k h.2]

end EntryList

/-- Is the value a mapping? -/
def Value.isDict : Value → Bool
  | .dict _ => true
  | _ => false

/-- Is the optional existing value a mapping? -/
def isDictOpt : Option Value → Bool
  | some v => v.isDict
  | none => false

/-- When the existing value and the override value are not both dicts,
one override entry simply stores the override value. -/
theorem mergeStep_eq_self (o : Option Value) (v : Value)
    (h : v.isDict = false ∨ isDictOpt o = false) : mergeStep o v = v := by
  cases o with
  | none => cases v <;> rfl
  | some w =>
    cases w <;> cases v <;> first
      | rfl
      | (exact absurd h (by simp [Value.isDict, isDictOpt]))

/-- The master description of `_merge_dict`: the result of a lookup in the
merged tree, for every key, in terms of lookups in `base` and `override`
(with `override` a genuine dict, i.e. no duplicate keys). -/
theorem lookup_merge_dict : ∀ (override base : Tree), override.keys.Nodup →
    ∀ k, (merge_dict base override).lookup k =
      match override.lookup k with
      | none => base.lookup k
      | some v => some (mergeStep (base.lookup k) v)
  | .nil, base, _, k => by simp [merge_dict, EntryList.lookup]
  | .cons k₀ v₀ rest, base, h, k => by
    have h' := List.nodup_cons.mp (by simpa [EntryList.keys] using h)
    have IH := lookup_merge_dict rest (base.set k₀ (mergeStep (base.lookup k₀) v₀)) h'.2 k
    show (merge_dict (base.set k₀ (mergeStep (base.lookup k₀) v₀)) rest).lookup k =
      match (EntryList.cons k₀ v₀ rest).lookup k with
      | none => base.lookup k
      | some v => some (mergeStep (base.lookup k) v)
    rw [IH]
    by_cases hk : k₀ = k
    · subst hk
      rw [EntryList.lookup_eq_none_of_not_mem_keys rest k₀ h'.1]
      simp [EntryList.lookup, EntryList.lookup_set_self]
    · have hset : (base.set k₀ (mergeStep (base.lookup k₀) v₀)).lookup k = base.lookup k :=
        EntryList.lookup_set_ne base k₀ k _ (Ne.symm hk)
      simp only [hset, EntryList.lookup, if_neg hk]

/-! ### Claims -/

/-- **C1.** For all nested mappings `base` and `override` (a mapping has no
duplicate keys), `merge(base, override)` contains every key of `override`;
at a key present in both where both values are mappings the result is the
recursive merge; at every other key of `override` the result is the override
value; and keys of `base` absent from `override` are preserved unchanged. -/
theorem C1_merge_contract (base override : Tree) (h : override.keys.Nodup) :
    (∀ k, override.containsKey k = true → (merge_dict base override).containsKey k = true) ∧
    (∀ k bm om, base.lookup k = some (.dict bm) → override.lookup k = some (.dict om) →
      (merge_dict base override).lookup k = some (.dict (merge_dict bm om))) ∧
    (∀ k v, override.lookup k = some v →
      v.isDict = false ∨ isDictOpt (base.lookup k) = false →
      (merge_dict base override).lookup k = some v) ∧
    (∀ k, override.containsKey k = false →
      (merge_dict base override).lookup k = base.lookup k) := by
  refine ⟨?_, ?_, ?_, ?_⟩
  · intro k hk
    rw [EntryList.containsKey_eq_isSome_lookup] at hk ⊢
    rw [lookup_merge_dict override base h k]
    cases hov : override.lookup k with
    | none => rw [hov] at hk; simp at hk
    | some v => simp
  · intro k bm om hb ho
    rw [lookup_merge_dict override base h k, ho, hb]
    rfl
  · intro k v ho hcond
    rw [lookup_merge_dict override base h k, ho]
    show some (mergeStep (base.lookup k) v) = some v
    rw [mergeStep_eq_self _ _ hcond]
  · intro k hk
    rw [EntryList.containsKey_eq_isSome_lookup] at hk
    rw [lookup_merge_dict override base h k]
    cases hov : override.lookup k with
    | none => rfl
    | some v => rw [hov] at hk; simp at hk

/-- A sample base tree for exercising the merge contract. -/
def sampleBase : Tree :=
  .cons "a" (.int 1) (.cons "s" (.dict (.cons "x" (.int 1) .nil)) .nil)

/-- A sample override tree for exercising the merge contract. -/
def sampleOverride : Tree :=
  .cons "s" (.dict (.cons "x" (.int 2) .nil)) (.cons "b" (.int 3) .nil)

/-- Witness for C1 at concrete trees: the override-only key appears, the
common dict key is merged recursively, the scalar override key takes the
override value, and the base-only key is untouched. -/
theorem C1_merge_contract_witness :
    sampleOverride.keys.Nodup ∧
    (merge_dict sampleBase sampleOverride).containsKey "b" = true ∧
    (merge_dict sampleBase sampleOverride).lookup "s" =
      some (.dict (merge_dict (.cons "x" (.int 1) .nil) (.cons "x" (.int 2) .nil))) ∧
    (merge_dict sampleBase sampleOverride).lookup "b" = some (.int 3) ∧
    (merge_dict sampleBase sampleOverride).lookup "a" = some (.int 1) := by
  have h := C1_merge_contract sampleBase sampleOverride (by decide)
  refine ⟨by decide, h.1 "b" rfl, h.2.1 "s" _ _ rfl rfl, h.2.2.1 "b" (.int 3) rfl (Or.inl rfl), ?_⟩
  exact (h.2.2.2 "a" rfl).trans rfl

/-- **C2.** Starting from a store with no tracked sources, loading `A` at
priority 1 then `B` at priority 2 yields the same merged tree as loading `B`
then `A`: `load` appends to the source list, stable-sorts it by priority
ascending, and rebuilds the tree from scratch by folding the merger over the
sorted list, so arrival order is immaterial. -/
theorem C2_load_order_irrelevant (fs : FS) (st : ConfigState) (A B : String)
    (tA tB : Tree) (hfiles : st.config_files = [])
    (hA : fs.isfile A = true) (hB : fs.isfile B = true)
    (hpA : fs.parse A = .ok tA) (hpB : fs.parse B = .ok tB) :
    ((load fs (load fs st A 1).1 B 2).1).config_data =
      ((load fs (load fs st B 2).1 A 1).1).config_data := by
  simp [load, hA, hB, hfiles, sortByPriority, insertByPriority, buildData, hpA, hpB,
    show (1 : Int) ≤ 2 by norm_num, show ¬((2 : Int) ≤ 1) by norm_num]

/-- A two-file external world: `a.json` parses to `{k: "va"}`, `b.json`
parses to `{k: "vb"}`. -/
def fsTwo : FS where
  isfile := fun f => f == "a.json" || f == "b.json"
  parse := fun f =>
    if f = "a.json" then .ok (.cons "k" (.str "va") .nil)
    else if f = "b.json" then .ok (.cons "k" (.str "vb") .nil)
    else .error .unsupportedFormat

/-- Witness for C2 on the two-file world, starting from the fresh store. -/
theorem C2_load_order_irrelevant_witness :
    ConfigState.empty.config_files = [] ∧
    fsTwo.isfile "a.json" = true ∧
    ((load fsTwo (load fsTwo ConfigState.empty "a.json" 1).1 "b.json" 2).1).config_data =
      ((load fsTwo (load fsTwo ConfigState.empty "b.json" 2).1 "a.json" 1).1).config_data :=
  ⟨rfl, rfl, C2_load_order_irrelevant fsTwo ConfigState.empty "a.json" "b.json"
    (.cons "k" (.str "va") .nil) (.cons "k" (.str "vb") .nil) rfl rfl rfl rfl rfl⟩

/-- **C3, counterexample.** On the tree `{missing: 5}`, the lookup
`get("missing.key", default=42)` does not return the default: the loop's
`"key" not in 5` raises an uncaught `TypeError`, refuting "returns the
default (and never raises) ... including trees where the value at `missing`
is a scalar". -/
theorem C3_get_scalar_raises_cex :
    get (.cons "missing" (.int 5) .nil) "missing.key" (.int 42) none = .error () ∧
    (Except.error () : PyResult Value) ≠ .ok (.int 42) :=
  ⟨rfl, fun h => Except.noConfusion h⟩

/-- **C3, amended.** `get(key, default)` returns the default the moment the
loop's membership test `segment not in cur` comes out true — Python's `in`
per type: an absent key of a mapping, a segment that is not a substring of a
string value, or not an element of a list value — so
`get("missing.key", 42) = 42` also holds for many non-mapping scalars at
`missing`, e.g. strings not containing `"key"`.  "Never raises" fails in two
ways: a non-container scalar (number, boolean, `None`) at an intermediate
position makes the membership test itself raise an uncaught `TypeError`, and
when the test succeeds on a string or list the subsequent string-keyed
subscript `cur[segment]` raises `TypeError`.  The nine clauses cover every
shape the value at `missing` can take. -/
theorem C3_get_default_amended (t : Tree) (d : Value) :
    (t.lookup "missing" = none → get t "missing.key" d none = .ok d) ∧
    (∀ m : Tree, t.lookup "missing" = some (.dict m) → m.lookup "key" = none →
      get t "missing.key" d none = .ok d) ∧
    (∀ s : String, t.lookup "missing" = some (.str s) → pySubstr "key" s = false →
      get t "missing.key" d none = .ok d) ∧
    (∀ s : String, t.lookup "missing" = some (.str s) → pySubstr "key" s = true →
      get t "missing.key" d none = .error ()) ∧
    (∀ xs : ValueList, t.lookup "missing" = some (.list xs) →
      pyNotIn.go "key" xs = false → get t "missing.key" d none = .ok d) ∧
    (∀ xs : ValueList, t.lookup "missing" = some (.list xs) →
      pyNotIn.go "key" xs = true → get t "missing.key" d none = .error ()) ∧
    (∀ n : Int, t.lookup "missing" = some (.int n) →
      get t "missing.key" d none = .error ()) ∧
    (∀ b : Bool, t.lookup "missing" = some (.bool b) →
      get t "missing.key" d none = .error ()) ∧
    (t.lookup "missing" = some .null → get t "missing.key" d none = .error ()) := by
  have hsplit : pySplitDot "missing.key" = ["missing", "key"] := rfl
  refine ⟨?_, ?_, ?_, ?_, ?_, ?_, ?_, ?_, ?_⟩
  · intro h
    simp [get, hsplit, getLoop, pyNotIn, h]
  · intro m hm hk
    simp [get, hsplit, getLoop, pyNotIn, hm, pySubscript, hk]
  · intro s hs hsub
    simp [get, hsplit, getLoop, pyNotIn, hs, hsub, pySubscript]
  · intro s hs hsub
    simp [get, hsplit, getLoop, pyNotIn, hs, hsub, pySubscript]
  · intro xs hxs hmem
    simp [get, hsplit, getLoop, pyNotIn, hxs, hmem, pySubscript]
  · intro xs hxs hmem
    simp [get, hsplit, getLoop, pyNotIn, hxs, hmem, pySubscript]
  · intro n hn
    simp [get, hsplit, getLoop, pyNotIn, hn, pySubscript]
  · intro b hb
    simp [get, hsplit, getLoop, pyNotIn, hb, pySubscript]
  · intro h
    simp [get, hsplit, getLoop, pyNotIn, h, pySubscript]

/-- Witness for the amended C3: one concrete tree per clause — absent key,
empty sub-mapping, the string `"hello"` (no substring, default returned),
the string `"keyhole"` (substring found, subscript raises), a list without
and with the element `"key"`, and the non-container scalars `5`, `True`,
`None`. -/
theorem C3_get_default_amended_witness :
    get .nil "missing.key" (.int 42) none = .ok (.int 42) ∧
    get (.cons "missing" (.dict .nil) .nil) "missing.key" (.int 42) none = .ok (.int 42) ∧
    get (.cons "missing" (.str "hello") .nil) "missing.key" (.int 42) none = .ok (.int 42) ∧
    get (.cons "missing" (.str "keyhole") .nil) "missing.key" (.int 42) none = .error () ∧
    get (.cons "missing" (.list (.cons (.str "x") .nil)) .nil) "missing.key"
      (.int 42) none = .ok (.int 42) ∧
    get (.cons "missing" (.list (.cons (.str "key") .nil)) .nil) "missing.key"
      (.int 42) none = .error () ∧
    get (.cons "missing" (.int 5) .nil) "missing.key" (.int 42) none = .error () ∧
    get (.cons "missing" (.bool true) .nil) "missing.key" (.int 42) none = .error () ∧
    get (.cons "missing" .null .nil) "missing.key" (.int 42) none = .error () :=
  ⟨(C3_get_default_amended .nil (.int 42)).1 rfl,
   (C3_get_default_amended (.cons "missing" (.dict .nil) .nil) (.int 42)).2.1 .nil rfl rfl,
   (C3_get_default_amended (.cons "missing" (.str "hello") .nil) (.int 42)).2.2.1
     "hello" rfl rfl,
   (C3_get_default_amended (.cons "missing" (.str "keyhole") .nil) (.int 42)).2.2.2.1
     "keyhole" rfl rfl,
   (C3_get_default_amended (.cons "missing" (.list (.cons (.str "x") .nil)) .nil)
     (.int 42)).2.2.2.2.1 (.cons (.str "x") .nil) rfl rfl,
   (C3_get_default_amended (.cons "missing" (.list (.cons (.str "key") .nil)) .nil)
     (.int 42)).2.2.2.2.2.1 (.cons (.str "key") .nil) rfl rfl,
   (C3_get_default_amended (.cons "missing" (.int 5) .nil) (.int 42)).2.2.2.2.2.2.1 5 rfl,
   (C3_get_default_amended (.cons "missing" (.bool true) .nil)
     (.int 42)).2.2.2.2.2.2.2.1 true rfl,
   (C3_get_default_amended (.cons "missing" .null .nil) (.int 42)).2.2.2.2.2.2.2.2 rfl⟩

/-- `Modelled from the spec:` the bool coercion policy the specification
states for `_convert_bool` — booleans pass, the six recognised strings
coerce, "anything else → error".  Present only to exhibit its divergence
from the implemented `_convert_bool`. -/
def convert_bool_strict (val : Value) : PyResult Bool :=
  match val with
  | .bool b => .ok b
  | .str s =>
    let lower_val := pyLower s
    if lower_val = "true" ∨ lower_val = "yes" ∨ lower_val = "1" then .ok true
    else if lower_val = "false" ∨ lower_val = "no" ∨ lower_val = "0" then .ok false
    else .error ()
  | _ => .error ()

/-- **C4, counterexample.** `_convert_bool` applies generic truthiness
instead of failing on unrecognised input: `"hello"` and `7` both coerce to
`True`, and the empty string to `False`, where the claimed strict policy
errors. -/
theorem C4_convert_bool_cex :
    convert_bool (.str "hello") = true ∧
    convert_bool (.int 7) = true ∧
    convert_bool (.str "") = false ∧
    convert_bool_strict (.str "hello") = .error () ∧
    convert_bool_strict (.int 7) = .error () :=
  ⟨rfl, rfl, rfl, rfl, rfl⟩

/-- **C4, amended.** The bool coercion passes real booleans through and
coerces the strings `true`/`yes`/`1` and `false`/`no`/`0` case-insensitively;
every other input falls back to Python truthiness `bool(val)` — nonempty
unrecognised strings give `True`, the empty string `False`, numbers compare
against zero, `None` gives `False` — rather than failing with an error. -/
theorem C4_convert_bool_amended :
    (∀ b, convert_bool (.bool b) = b) ∧
    (∀ s, pyLower s = "true" ∨ pyLower s = "yes" ∨ pyLower s = "1" →
      convert_bool (.str s) = true) ∧
    (∀ s, pyLower s = "false" ∨ pyLower s = "no" ∨ pyLower s = "0" →
      convert_bool (.str s) = false) ∧
    (∀ s, pyLower s ∉ (["true", "yes", "1", "false", "no", "0"] : List String) →
      convert_bool (.str s) = !s.isEmpty) ∧
    (∀ n : Int, convert_bool (.int n) = (n != 0)) ∧
    (convert_bool .null = false) := by
  refine ⟨fun b => rfl, ?_, ?_, ?_, fun n => rfl, rfl⟩
  · intro s h
    simp only [convert_bool, if_pos h]
  · intro s h
    have hne : ¬(pyLower s = "true" ∨ pyLower s = "yes" ∨ pyLower s = "1") := by
      rcases h with h | h | h <;> rw [h] <;> decide
    simp only [convert_bool, if_neg hne, if_pos h]
  · intro s h
    simp only [List.mem_cons, List.not_mem_nil, or_false] at h
    push_neg at h
    obtain ⟨h₁, h₂, h₃, h₄, h₅, h₆⟩ := h
    have hA : ¬(pyLower s = "true" ∨ pyLower s = "yes" ∨ pyLower s = "1") := by
      rintro (hc | hc | hc)
      exacts [h₁ hc, h₂ hc, h₃ hc]
    have hB : ¬(pyLower s = "false" ∨ pyLower s = "no" ∨ pyLower s = "0") := by
      rintro (hc | hc | hc)
      exacts [h₄ hc, h₅ hc, h₆ hc]
    simp only [convert_bool, if_neg hA, if_neg hB, pyTruthy]

/-- Witness for the amended C4 at concrete inputs. -/
theorem C4_convert_bool_amended_witness :
    convert_bool (.bool false) = false ∧
    convert_bool (.str "TRUE") = true ∧
    convert_bool (.str "No") = false ∧
    convert_bool (.str "hello") = true ∧
    convert_bool (.int 0) = false := by
  have h := C4_convert_bool_amended
  exact ⟨h.1 false, h.2.1 "TRUE" (by decide), h.2.2.1 "No" (by decide),
    (h.2.2.2.1 "hello" (by decide)).trans rfl, (h.2.2.2.2.1 0).trans rfl⟩

/-- A fresh store with one plain registered listener (callback id 1). -/
def stOneListener : ConfigState :=
  add_change_listener ConfigState.empty "l1" (.plain 1)

/-- **C5, counterexample.** With a listener registered and an environment
overlay that genuinely changes the tree, `load_env` fires no notifications:
the method never calls `_notify_change_listeners`. -/
theorem C5_load_env_no_notify_cex :
    stOneListener.change_listeners = [("l1", .plain 1)] ∧
    (load_env [("APP_PORT", "1")] stOneListener "").1.config_data =
      .cons "APP_PORT" (.str "1") .nil ∧
    (load_env [("APP_PORT", "1")] stOneListener "").2 = [] :=
  ⟨rfl, rfl, rfl⟩

/-- **C5, amended.** Every registered change listener is invoked
synchronously, in registration order, on every successful `load`, each
invocation receiving the `(old tree, new tree)` pair; `load_env` merges the
prefix-filtered environment variables on top of the current tree but fires
no change notifications. -/
theorem C5_notifications_amended (fs : FS) (st : ConfigState) (f : String)
    (p : Int) (envVars : List (String × String)) (pref : String) :
    ((∃ invs, (load fs st f p).2 = .ok invs) →
      (load fs st f p).2 = .ok (st.change_listeners.map
        (fun q => listenerEvent q.2 st.config_data (load fs st f p).1.config_data))) ∧
    (load_env envVars st pref).2 = [] ∧
    (load_env envVars st pref).1.config_data =
      merge_dict st.config_data (load_env.envGo pref envVars .nil) := by
  refine ⟨?_, rfl, rfl⟩
  rintro ⟨invs, hok⟩
  simp only [load] at hok ⊢
  cases hif : fs.isfile f with
  | false => simp [hif] at hok
  | true =>
    simp only [hif, Bool.true_eq_false, if_false] at hok ⊢
    cases hb : buildData fs (sortByPriority (st.config_files ++ [(f, p)])) EntryList.nil with
    | error e => simp [hb] at hok
    | ok newData => simp [hb, notify_change_listeners]

/-- Witness for the amended C5: one successful load invokes the single
listener with the `(old, new)` pair; a `load_env` on the same store fires
nothing while changing the tree. -/
theorem C5_notifications_amended_witness :
    (load fsTwo stOneListener "a.json" 0).2 =
      .ok [.called 1 .nil (.cons "k" (.str "va") .nil)] ∧
    (load_env [("K", "1")] stOneListener "").2 = [] := by
  have h := C5_notifications_amended fsTwo stOneListener "a.json" 0 [("K", "1")] ""
  exact ⟨(h.1 ⟨_, rfl⟩).trans rfl, h.2.1⟩

/-- An external world with one existing file of an unsupported format and one
good JSON file. -/
def fsBad : FS where
  isfile := fun f => f == "bad.txt" || f == "a.json"
  parse := fun f =>
    if f = "a.json" then .ok (.cons "k" (.str "va") .nil)
    else .error .unsupportedFormat

/-- **C6, counterexample.** A `load` of an existing file with an unsupported
extension raises — but only after `self._config_files.append(...)` has run,
so the failed call does mutate the instance state: the bad source stays in
the tracked source list. -/
theorem C6_failed_load_mutates_cex :
    ConfigState.empty.config_files = [] ∧
    (load fsBad ConfigState.empty "bad.txt" 0).2 = .error .unsupportedFormat ∧
    (load fsBad ConfigState.empty "bad.txt" 0).1.config_files = [("bad.txt", 0)] :=
  ⟨rfl, rfl, rfl⟩

/-- **C6, amended.** When `load` raises, the stored merged tree (and the
listener and metadata registries) are unchanged; the instance state is fully
unchanged only for a missing file, where the raise precedes any mutation;
for an unsupported extension or a missing optional dependency the failing
source has already been appended to the tracked source list (and the list
re-sorted), where it remains. -/
theorem C6_failed_load_amended (fs : FS) (st : ConfigState) (f : String)
    (p : Int) (e : LoadErr) (h : (load fs st f p).2 = .error e) :
    (load fs st f p).1.config_data = st.config_data ∧
    (load fs st f p).1.change_listeners = st.change_listeners ∧
    (load fs st f p).1.config_metadata = st.config_metadata ∧
    (fs.isfile f = false → (load fs st f p).1 = st) ∧
    (fs.isfile f = true →
      (load fs st f p).1.config_files = sortByPriority (st.config_files ++ [(f, p)])) := by
  simp only [load] at h ⊢
  cases hif : fs.isfile f with
  | false => simp
  | true =>
    simp only [hif, Bool.true_eq_false, if_false] at h ⊢
    cases hb : buildData fs (sortByPriority (st.config_files ++ [(f, p)])) EntryList.nil with
    | error e₂ => simp [hb]
    | ok newData => simp [hb] at h

/-- Witness for the amended C6 on the unsupported-format file. -/
theorem C6_failed_load_amended_witness :
    (load fsBad ConfigState.empty "bad.txt" 0).1.config_data = .nil ∧
    fsBad.isfile "bad.txt" = true ∧
    (load fsBad ConfigState.empty "bad.txt" 0).1.config_files = [("bad.txt", 0)] := by
  have h := C6_failed_load_amended fsBad ConfigState.empty "bad.txt" 0 .unsupportedFormat rfl
  exact ⟨h.1, rfl, (h.2.2.2.2 rfl).trans rfl⟩

/-! ### Sort and rebuild lemmas -/

theorem mem_insertByPriority (y : String × Int) :
    ∀ (l : List (String × Int)) (x : String × Int),
      x ∈ insertByPriority y l → x = y ∨ x ∈ l
  | [], x, h => by simpa [insertByPriority] using h
  | z :: zs, x, h => by
    simp only [insertByPriority] at h
    by_cases hc : y.2 ≤ z.2
    · rw [if_pos hc] at h
      rcases List.mem_cons.mp h with h | h
      exacts [Or.inl h, Or.inr h]
    · rw [if_neg hc] at h
      rcases List.mem_cons.mp h with h | h
      · exact Or.inr (List.mem_cons.mpr (Or.inl h))
      · rcases mem_insertByPriority y zs x h with h | h
        exacts [Or.inl h, Or.inr (List.mem_cons.mpr (Or.inr h))]

theorem mem_sortByPriority : ∀ (l : List (String × Int)) (x : String × Int),
    x ∈ sortByPriority l → x ∈ l
  | [], x, h => by simp [sortByPriority] at h
  | y :: ys, x, h => by
    simp only [sortByPriority] at h
    rcases mem_insertByPriority y (sortByPriority ys) x h with h | h
    · exact List.mem_cons.mpr (Or.inl h)
    · exact List.mem_cons.mpr (Or.inr (mem_sortByPriority ys x h))

theorem insertByPriority_eq_cons (x : String × Int) (l : List (String × Int))
    (h : ∀ y ∈ l, x.2 ≤ y.2) : insertByPriority x l = x :: l := by
  cases l with
  | nil => rfl
  | cons z zs => simp [insertByPriority, if_pos (h z (List.mem_cons_self z zs))]

/-- A list whose priorities all tie at 0 is already stably sorted. -/
theorem sortByPriority_zeros : ∀ (l : List (String × Int)),
    (∀ x ∈ l, x.2 = 0) → sortByPriority l = l
  | [], _ => rfl
  | y :: ys, h => by
    have hys := sortByPriority_zeros ys (fun x hx => h x (List.mem_cons.mpr (Or.inr hx)))
    simp only [sortByPriority, hys]
    exact insertByPriority_eq_cons y ys (fun z hz => by
      have h1 := h y (List.mem_cons_self y ys)
      have h2 := h z (List.mem_cons.mpr (Or.inr hz))
      omega)

/-- Appending an entry of nonnegative priority to an all-zero list keeps the
stable sort the identity: the new entry stays last. -/
theorem sortByPriority_zeros_append : ∀ (l : List (String × Int)) (c : String × Int),
    (∀ x ∈ l, x.2 = 0) → 0 ≤ c.2 → sortByPriority (l ++ [c]) = l ++ [c]
  | [], c, _, _ => by simp [sortByPriority, insertByPriority]
  | y :: ys, c, hl, hc => by
    have hys := sortByPriority_zeros_append ys c
      (fun x hx => hl x (List.mem_cons.mpr (Or.inr hx))) hc
    show insertByPriority y (sortByPriority (ys ++ [c])) = y :: (ys ++ [c])
    rw [hys]
    exact insertByPriority_eq_cons y (ys ++ [c]) (fun z hz => by
      have h1 := hl y (List.mem_cons_self y ys)
      rcases List.mem_append.mp hz with h | h
      · have h2 := hl z (List.mem_cons.mpr (Or.inr h))
        omega
      · simp at h
        subst h
        omega)

theorem buildData_append (fs : FS) : ∀ (l₁ l₂ : List (String × Int)) (acc d : Tree),
    buildData fs (l₁ ++ l₂) acc = .ok d →
    ∃ d₁, buildData fs l₁ acc = .ok d₁ ∧ buildData fs l₂ d₁ = .ok d
  | [], _, acc, _, h => ⟨acc, rfl, h⟩
  | (f, q) :: l₁, l₂, acc, d, h => by
    simp only [List.cons_append, buildData] at h ⊢
    cases hp : fs.parse f with
    | error e =>
      rw [hp] at h
      simp at h
    | ok t =>
      rw [hp] at h
      exact buildData_append fs l₁ l₂ (merge_dict acc t) d h

/-- A `load` at priority 0 into a store whose priorities are all 0 keeps
every priority 0 — also when the load fails. -/
theorem load_zero_priorities (fs : FS) (st : ConfigState) (f : String)
    (hz : ∀ x ∈ st.config_files, x.2 = 0) :
    ∀ x ∈ (load fs st f 0).1.config_files, x.2 = 0 := by
  simp only [load]
  cases hf : fs.isfile f with
  | false => simpa using hz
  | true =>
    have hz' : ∀ x ∈ sortByPriority (st.config_files ++ [(f, 0)]), x.2 = 0 := by
      intro x hx
      rcases List.mem_append.mp (mem_sortByPriority _ x hx) with h | h
      · exact hz x h
      · simp at h
        simp [h]
    cases hb : buildData fs (sortByPriority (st.config_files ++ [(f, 0)])) EntryList.nil with
    | error e => simpa using hz'
    | ok nd => simpa using hz'

/-- Every tracked entry after the reload loop has priority 0, regardless of
mid-loop failures. -/
theorem reloadGo_priorities (fs : FS) : ∀ (names : List String) (st : ConfigState),
    (∀ x ∈ st.config_files, x.2 = 0) →
    ∀ x ∈ (reloadGo fs st names).1.config_files, x.2 = 0
  | [], st, hz => by simpa [reloadGo] using hz
  | f :: rest, st, hz => by
    have h₁ := load_zero_priorities fs st f hz
    rcases hld : load fs st f 0 with ⟨st₁, r⟩
    rw [hld] at h₁
    cases r with
    | error e => simpa [reloadGo, hld] using h₁
    | ok inv =>
      have IH := reloadGo_priorities fs rest st₁ h₁
      rcases hrec : reloadGo fs st₁ rest with ⟨st₂, r₂⟩
      rw [hrec] at IH
      cases r₂ <;> simpa [reloadGo, hld, hrec] using IH

/-- The reload loop over files that all exist and whose rebuild succeeds:
the tracked list becomes the visited names at priority 0 (appended in
visit order), and — when at least one file is visited — the merged tree is
rebuilt from those files alone. -/
theorem reloadGo_spec (fs : FS) : ∀ (names : List String) (st : ConfigState) (d : Tree),
    (∀ f ∈ names, fs.isfile f = true) →
    (∀ x ∈ st.config_files, x.2 = 0) →
    buildData fs (st.config_files ++ names.map (fun f => (f, 0))) .nil = .ok d →
    (reloadGo fs st names).1.config_files =
      st.config_files ++ names.map (fun f => (f, 0)) ∧
    (names = [] → (reloadGo fs st names).1.config_data = st.config_data) ∧
    (names ≠ [] → (reloadGo fs st names).1.config_data = d)
  | [], st, d, _, _, _ => by simp [reloadGo]
  | f :: rest, st, d, hnames, hzero, hd => by
    have hf : fs.isfile f = true := hnames f (List.mem_cons_self f rest)
    have hsplit : st.config_files ++ (f :: rest).map (fun g => (g, 0)) =
        (st.config_files ++ [(f, 0)]) ++ rest.map (fun g => (g, 0)) := by simp
    rw [hsplit] at hd
    obtain ⟨d₁, hd₁, hd₂⟩ := buildData_append fs _ _ _ _ hd
    have hsort : sortByPriority (st.config_files ++ [(f, 0)]) = st.config_files ++ [(f, 0)] :=
      sortByPriority_zeros_append _ _ hzero (le_refl 0)
    have hload : load fs st f 0 =
        ({ st with config_files := st.config_files ++ [(f, 0)], config_data := d₁ },
         .ok (notify_change_listeners st.change_listeners st.config_data d₁)) := by
      simp [load, hf, hsort, hd₁]
    have hzero₁ : ∀ x ∈ st.config_files ++ [(f, 0)], x.2 = 0 := by
      intro x hx
      rcases List.mem_append.mp hx with h | h
      · exact hzero x h
      · simp at h
        simp [h]
    have IH := reloadGo_spec fs rest
      { st with config_files := st.config_files ++ [(f, 0)], config_data := d₁ } d
      (fun g hg => hnames g (List.mem_cons.mpr (Or.inr hg))) hzero₁ hd
    rcases hrec : reloadGo fs
      { st with config_files := st.config_files ++ [(f, 0)], config_data := d₁ } rest
      with ⟨st₂, r₂⟩
    rw [hrec] at IH
    have hfiles₂ : st₂.config_files = st.config_files ++ (f :: rest).map (fun g => (g, 0)) := by
      rw [hsplit]
      simpa using IH.1
    have hdata₂ : st₂.config_data = d := by
      cases rest with
      | nil =>
        have hok : Except.ok (ε := LoadErr) d₁ = .ok d := by
          simpa [buildData] using hd₂
        exact (IH.2.1 rfl).trans (Except.ok.inj hok)
      | cons g gs => exact IH.2.2 (by simp)
    refine ⟨?_, fun hcon => absurd hcon (by simp), fun _ => ?_⟩
    · cases r₂ <;> simpa [reloadGo, hload, hrec] using hfiles₂
    · cases r₂ <;> simpa [reloadGo, hload, hrec] using hdata₂

/-- The store after loading `a.json` at priority 5 and then `b.json` at
priority 1: the tracked list is priority-sorted, b before a. -/
def stAB : ConfigState :=
  (load fsTwo (load fsTwo ConfigState.empty "a.json" 5).1 "b.json" 1).1

/-- **C7, counterexample.** `reload` iterates the current tracked list, which
is priority-sorted — not the original insertion order.  Sources were first
loaded a-then-b, yet `reload` re-runs b-then-a: the resulting merged value at
`k` is a's (`"va"`), where an insertion-order re-run would leave b's
(`"vb"`). -/
theorem C7_reload_not_insertion_order_cex :
    stAB.config_files = [("b.json", 1), ("a.json", 5)] ∧
    (reload fsTwo stAB).1.config_files = [("b.json", 0), ("a.json", 0)] ∧
    (reload fsTwo stAB).1.config_data.lookup "k" = some (.str "va") ∧
    ((load fsTwo (load fsTwo { stAB with config_files := [] } "a.json" 0).1
        "b.json" 0).1).config_data.lookup "k" = some (.str "vb") ∧
    ("va" : String) ≠ "vb" :=
  ⟨rfl, rfl, rfl, rfl, by decide⟩

/-- **C7, amended.** `reload()` re-runs `load` for every tracked source in
the current list order — the priority-sorted order, ties by insertion — at
the default priority 0, and rebuilds the merged tree from those sources
alone: the result does not depend on the current tree, so an environment
overlay merged by an earlier `load_env` is absent after `reload` unless
`load_env` is called again. -/
theorem C7_reload_amended (fs : FS) (st : ConfigState) (d : Tree)
    (hfile : ∀ q ∈ st.config_files, fs.isfile q.1 = true)
    (hd : buildData fs (st.config_files.map (fun q => (q.1, 0))) .nil = .ok d)
    (hne : st.config_files ≠ []) :
    (reload fs st).1.config_files = st.config_files.map (fun q => (q.1, 0)) ∧
    (reload fs st).1.config_data = d ∧
    (∀ d' : Tree, (reload fs { st with config_data := d' }).1.config_data = d) := by
  have hmap : (st.config_files.map Prod.fst).map (fun f => (f, 0)) =
      st.config_files.map (fun q => (q.1, 0)) := by
    rw [List.map_map]
    rfl
  have happly : ∀ d' : Tree,
      (reload fs { st with config_data := d' }).1.config_files =
        st.config_files.map (fun q => (q.1, 0)) ∧
      (reload fs { st with config_data := d' }).1.config_data = d := by
    intro d'
    have h := reloadGo_spec fs (st.config_files.map Prod.fst)
      { st with config_data := d', config_files := [] } d
      (by
        intro f hf
        rcases List.mem_map.mp hf with ⟨q, hq, rfl⟩
        exact hfile q hq)
      (by simp)
      (by simpa [hmap] using hd)
    have hnames : st.config_files.map Prod.fst ≠ [] := by
      intro hcon
      exact hne (List.map_eq_nil_iff.mp hcon)
    refine ⟨?_, ?_⟩
    · show (reloadGo fs { st with config_data := d', config_files := [] }
        (st.config_files.map Prod.fst)).1.config_files = _
      rw [h.1]
      simp [hmap]
    · show (reloadGo fs { st with config_data := d', config_files := [] }
        (st.config_files.map Prod.fst)).1.config_data = _
      exact h.2.2 hnames
  have hself := happly st.config_data
  exact ⟨hself.1, hself.2, fun d' => (happly d').2⟩

/-- The store after loading `a.json` at priority 5 and overlaying the
environment variable `E=1` with the empty prefix. -/
def stEnvA : ConfigState :=
  (load_env [("E", "1")] (load fsTwo ConfigState.empty "a.json" 5).1 "").1

/-- Witness for the amended C7: after `load_env` put `E` into the tree,
`reload` rebuilds from the one tracked file at priority 0 and `E` is gone. -/
theorem C7_reload_amended_witness :
    stEnvA.config_data.lookup "E" = some (.str "1") ∧
    (reload fsTwo stEnvA).1.config_files = [("a.json", 0)] ∧
    (reload fsTwo stEnvA).1.config_data = .cons "k" (.str "va") .nil ∧
    (reload fsTwo stEnvA).1.config_data.lookup "E" = none := by
  have h := C7_reload_amended fsTwo stEnvA (.cons "k" (.str "va") .nil)
    (by
      intro q hq
      simp [stEnvA, load_env, load, fsTwo, ConfigState.empty, sortByPriority,
        insertByPriority, buildData, merge_dict] at hq
      rw [hq]
      rfl)
    rfl (by decide)
  refine ⟨rfl, h.1.trans rfl, h.2.1, ?_⟩
  rw [h.2.1]
  rfl

/-- **C8.** After any `reload()` on a store with a non-empty source list,
every tracked entry has priority 0 — `reload` re-invokes `load` at its
default priority, discarding all previously assigned priorities — and a
subsequent `load` of an existing file with a positive priority sorts after
every reloaded source, i.e. outranks them in the merge order. -/
theorem C8_reload_priorities (fs : FS) (st : ConfigState)
    (_hne : st.config_files ≠ []) :
    (∀ x ∈ (reload fs st).1.config_files, x.2 = 0) ∧
    (∀ (C : String) (p : Int), 0 < p → fs.isfile C = true →
      (load fs (reload fs st).1 C p).1.config_files =
        (reload fs st).1.config_files ++ [(C, p)]) := by
  have h0 : ∀ x ∈ (reload fs st).1.config_files, x.2 = 0 :=
    reloadGo_priorities fs (st.config_files.map Prod.fst)
      { st with config_files := [] } (by simp)
  refine ⟨h0, ?_⟩
  intro C p hp hC
  have hsort := sortByPriority_zeros_append (reload fs st).1.config_files (C, p)
    h0 (le_of_lt hp)
  simp only [load, hC, Bool.true_eq_false, if_false, hsort]
  cases hb : buildData fs ((reload fs st).1.config_files ++ [(C, p)]) EntryList.nil with
  | error e => simp
  | ok nd => simp

/-- Witness for C8 on the concrete two-file store: the reloaded entries both
carry priority 0, and a later priority-3 load lands at the end of the list. -/
theorem C8_reload_priorities_witness :
    stAB.config_files ≠ [] ∧
    (reload fsTwo stAB).1.config_files = [("b.json", 0), ("a.json", 0)] ∧
    (load fsTwo (reload fsTwo stAB).1 "a.json" 3).1.config_files =
      [("b.json", 0), ("a.json", 0), ("a.json", 3)] := by
  have h := C8_reload_priorities fsTwo stAB (by decide)
  exact ⟨by decide, rfl, (h.2 "a.json" 3 (by decide) rfl).trans rfl⟩

/-- **C9.** `validate` treats a key whose stored value is `None` exactly like
an absent key — `get(key, default=None)` returns `None` in both cases and the
`is None` test cannot tell them apart: a required entry raises the
missing-required-key error, an entry with a (non-`None`) default overwrites
the stored `None` with the default, and `validate_all` reports a required
item whose stored value is `None` as missing. -/
theorem C9_validate_null_as_missing (st : ConfigState) (key : String) (d : Value)
    (c : Option CastT)
    (hnull : get st.config_data key .null none = .ok .null) :
    (validate st [(key, { required := true, default := d, cast := c })] =
      .error (.missingRequired key)) ∧
    (d.isNull = false → ∀ d₂ : Tree, setValue st.config_data key d = .ok d₂ →
      validate st [(key, { required := false, default := d, cast := c })] =
        .ok { st with config_data := d₂ }) ∧
    (∀ item : ConfigItem, item.required = true →
      st.config_metadata = [(key, item)] →
      validate_all st = .ok [(key, some .missingRequired)]) := by
  refine ⟨?_, ?_, ?_⟩
  · simp [validate, hnull, Value.isNull]
  · intro hd d₂ hset
    cases d with
    | null => simp [Value.isNull] at hd
    | str s => simp [validate, hnull, Value.isNull, hset]
    | int n => simp [validate, hnull, Value.isNull, hset]
    | bool b => simp [validate, hnull, Value.isNull, hset]
    | list xs => simp [validate, hnull, Value.isNull, hset]
    | dict xs => simp [validate, hnull, Value.isNull, hset]
  · intro item hreq hmeta
    simp [validate_all, validate_all.go, hmeta, hnull, Value.isNull, hreq,
      pyAssocSet, pyAssocContains]

/-- A metadata item marking key `x` required, with no default. -/
def itemReq : ConfigItem :=
  { key := "x", description := "", default := .null, type := none,
    required := true, choices := none, minValue := none, maxValue := none }

/-- A store whose tree holds `{x: None}` and whose metadata requires `x`. -/
def stNull : ConfigState :=
  { config_data := .cons "x" .null .nil, config_files := [],
    config_metadata := [("x", itemReq)], change_listeners := [] }

/-- Witness for C9: on `{x: None}`, a required schema entry raises, a
default overwrites the stored `None`, and `validate_all` reports `x`
missing. -/
theorem C9_validate_null_as_missing_witness :
    get stNull.config_data "x" .null none = .ok .null ∧
    validate stNull [("x", { required := true, default := .null, cast := none })] =
      .error (.missingRequired "x") ∧
    validate stNull [("x", { required := false, default := .int 7, cast := none })] =
      .ok { stNull with config_data := .cons "x" (.int 7) .nil } ∧
    validate_all stNull = .ok [("x", some .missingRequired)] := by
  refine ⟨rfl, (C9_validate_null_as_missing stNull "x" .null none rfl).1, ?_, ?_⟩
  · exact (C9_validate_null_as_missing stNull "x" (.int 7) none rfl).2.1 rfl
      (.cons "x" (.int 7) .nil) rfl
  · exact (C9_validate_null_as_missing stNull "x" .null none rfl).2.2 itemReq rfl rfl

/-! ### Registry lemmas and C10 -/

theorem pyAssocLookup_replace_self {α : Type} :
    ∀ (m : List (String × α)) (k : String) (v : α),
      pyAssocContains m k = true → pyAssocLookup (pyAssocReplace m k v) k = some v
  | [], k, v, h => by simp [pyAssocContains] at h
  | (k₀, v₀) :: rest, k, v, h => by
    by_cases hk : k₀ = k
    · simp [pyAssocReplace, hk, pyAssocLookup]
    · simp [pyAssocContains, hk] at h
      simp [pyAssocReplace, hk, pyAssocLookup, hk,
        pyAssocLookup_replace_self rest k v h]

theorem pyAssocLookup_append_absent {α : Type} :
    ∀ (m : List (String × α)) (k : String) (v : α),
      pyAssocContains m k = false → pyAssocLookup (m ++ [(k, v)]) k = some v
  | [], k, v, _ => by simp [pyAssocLookup]
  | (k₀, v₀) :: rest, k, v, h => by
    simp [pyAssocContains] at h
    simp [pyAssocLookup, h.1, pyAssocLookup_append_absent rest k v h.2]

/-- Registering under an existing name replaces the entry: a lookup at the
name finds the new value. -/
theorem pyAssocLookup_set_self {α : Type} (m : List (String × α)) (k : String)
    (v : α) : pyAssocLookup (pyAssocSet m k v) k = some v := by
  unfold pyAssocSet
  cases hc : pyAssocContains m k with
  | true => simp [pyAssocLookup_replace_self m k v hc]
  | false => simp [pyAssocLookup_append_absent m k v hc]

theorem mem_pyAssocReplace {α : Type} :
    ∀ (m : List (String × α)) (k : String) (v : α) (q : String × α),
      q ∈ pyAssocReplace m k v → q = (k, v) ∨ (q ∈ m ∧ q.1 ≠ k)
  | [], k, v, q, h => by simp [pyAssocReplace] at h
  | (k₀, v₀) :: rest, k, v, q, h => by
    by_cases hk : k₀ = k
    · simp only [pyAssocReplace, if_pos hk] at h
      rcases List.mem_cons.mp h with h | h
      · exact Or.inl h
      · rcases mem_pyAssocReplace rest k v q h with h | h
        exacts [Or.inl h, Or.inr ⟨List.mem_cons.mpr (Or.inr h.1), h.2⟩]
    · simp only [pyAssocReplace, if_neg hk] at h
      rcases List.mem_cons.mp h with h | h
      · subst h
        exact Or.inr ⟨List.mem_cons.mpr (Or.inl rfl), hk⟩
      · rcases mem_pyAssocReplace rest k v q h with h | h
        exacts [Or.inl h, Or.inr ⟨List.mem_cons.mpr (Or.inr h.1), h.2⟩]

theorem ne_of_pyAssocContains_false {α : Type} :
    ∀ (m : List (String × α)) (k : String) (q : String × α),
      pyAssocContains m k = false → q ∈ m → q.1 ≠ k
  | [], _, q, _, hq => by simp at hq
  | (k₀, v₀) :: rest, k, q, h, hq => by
    simp [pyAssocContains] at h
    rcases List.mem_cons.mp hq with hq | hq
    · subst hq
      exact h.1
    · exact ne_of_pyAssocContains_false rest k q h.2 hq

/-- Every entry of the registry after an assignment is the assigned entry or
an untouched entry under a different name. -/
theorem mem_pyAssocSet {α : Type} (m : List (String × α)) (k : String) (v : α)
    (q : String × α) (h : q ∈ pyAssocSet m k v) :
    q = (k, v) ∨ (q ∈ m ∧ q.1 ≠ k) := by
  unfold pyAssocSet at h
  cases hc : pyAssocContains m k with
  | true =>
    rw [hc, if_pos rfl] at h
    exact mem_pyAssocReplace m k v q h
  | false =>
    rw [hc] at h
    simp only [Bool.false_eq_true, if_false] at h
    rcases List.mem_append.mp h with h | h
    · exact Or.inr ⟨h, ne_of_pyAssocContains_false m k q hc h⟩
    · simp at h
      exact Or.inl h

theorem self_mem_pyAssocReplace {α : Type} :
    ∀ (m : List (String × α)) (k : String) (v : α),
      pyAssocContains m k = true → (k, v) ∈ pyAssocReplace m k v
  | [], k, v, h => by simp [pyAssocContains] at h
  | (k₀, v₀) :: rest, k, v, h => by
    by_cases hk : k₀ = k
    · simp [pyAssocReplace, hk]
    · simp [pyAssocContains, hk] at h
      simp only [pyAssocReplace, if_neg hk]
      exact List.mem_cons.mpr (Or.inr (self_mem_pyAssocReplace rest k v h))

/-- The assigned entry is in the registry after an assignment. -/
theorem self_mem_pyAssocSet {α : Type} (m : List (String × α)) (k : String)
    (v : α) : (k, v) ∈ pyAssocSet m k v := by
  unfold pyAssocSet
  cases hc : pyAssocContains m k with
  | true => simpa using self_mem_pyAssocReplace m k v hc
  | false => simp

/-- Does this listener wrap the callback with the given identity? -/
def Listener.usesId : Listener → Nat → Bool
  | .plain i, j => i == j
  | .watcher _ i, j => i == j

/-- The callback identity an invocation record belongs to. -/
def Invo.ofId : Invo → Nat
  | .called i _ _ => i
  | .watchCalled i _ _ => i
  | .watchSkipped i => i
  | .watchRaised i => i

theorem ofId_listenerEvent (l : Listener) (old new : Tree) (i : Nat)
    (h : l.usesId i = false) : (listenerEvent l old new).ofId ≠ i := by
  cases l with
  | plain j =>
    simp [Listener.usesId] at h
    simpa [listenerEvent, Invo.ofId] using h
  | watcher key j =>
    simp [Listener.usesId] at h
    cases hov : get_nested old key with
    | error e => simp [listenerEvent, hov, Invo.ofId, h]
    | ok ov =>
      cases hnv : get_nested new key with
      | error e => simp [listenerEvent, hov, hnv, Invo.ofId, h]
      | ok nv =>
        by_cases heq : pyEq ov nv
        · simp [listenerEvent, hov, hnv, heq, Invo.ofId, h]
        · simp [listenerEvent, hov, hnv, heq, Invo.ofId, h]

/-- **C10.** `watch` registers its derived listener under the reserved name
`watch_` + key in the listener dict, so a second `watch` on the same key
replaces the first: after `watch(k, cb1)` then `watch(k, cb2)` (distinct
callbacks, `cb1` not registered elsewhere), the registry holds the `cb2`
watcher under that name, no notification round ever invokes `cb1` again, and
`cb2` is invoked whenever the value at `k` changes. -/
theorem C10_watch_replaces (st : ConfigState) (key : String) (i₁ i₂ : Nat)
    (hfresh : ∀ q ∈ st.change_listeners, q.2.usesId i₁ = false)
    (hne : i₁ ≠ i₂) :
    (pyAssocLookup (watch (watch st key i₁) key i₂).change_listeners
      ("watch_" ++ key) = some (.watcher key i₂)) ∧
    (∀ old new : Tree,
      ∀ ev ∈ notify_change_listeners
        (watch (watch st key i₁) key i₂).change_listeners old new,
        ev.ofId ≠ i₁) ∧
    (∀ (old new : Tree) (ov nv : Value),
      get_nested old key = .ok ov → get_nested new key = .ok nv →
      pyEq ov nv = false →
      .watchCalled i₂ ov nv ∈ notify_change_listeners
        (watch (watch st key i₁) key i₂).change_listeners old new) := by
  refine ⟨pyAssocLookup_set_self _ _ _, ?_, ?_⟩
  · intro old new ev hev
    rcases List.mem_map.mp hev with ⟨q, hq, rfl⟩
    rcases mem_pyAssocSet _ _ _ q hq with hq₂ | hq₂
    · subst hq₂
      exact ofId_listenerEvent _ old new i₁ (by simp [Listener.usesId, Ne.symm hne])
    · obtain ⟨hq₂, hqne⟩ := hq₂
      rcases mem_pyAssocSet _ _ _ q hq₂ with hq₃ | ⟨hq₃, _⟩
      · subst hq₃
        exact absurd rfl hqne
      · exact ofId_listenerEvent _ old new i₁ (hfresh q hq₃)
  · intro old new ov nv hov hnv hne₂
    refine List.mem_map.mpr ⟨("watch_" ++ key, .watcher key i₂),
      self_mem_pyAssocSet _ _ _, ?_⟩
    simp [listenerEvent, hov, hnv, hne₂]

/-- Witness for C10: after watching `a.b` with callback 1 and then callback 2,
a change of the value at `a.b` produces exactly one invocation — callback 2
with the old and new values — and the registry holds the second watcher. -/
theorem C10_watch_replaces_witness :
    Invo.watchCalled 2 (.int 1) (.int 2) ∈ notify_change_listeners
      (watch (watch ConfigState.empty "a.b" 1) "a.b" 2).change_listeners
      (.cons "a" (.dict (.cons "b" (.int 1) .nil)) .nil)
      (.cons "a" (.dict (.cons "b" (.int 2) .nil)) .nil) ∧
    pyAssocLookup (watch (watch ConfigState.empty "a.b" 1) "a.b" 2).change_listeners
      ("watch_" ++ "a.b") = some (.watcher "a.b" 2) ∧
    notify_change_listeners
      (watch (watch ConfigState.empty "a.b" 1) "a.b" 2).change_listeners
      (.cons "a" (.dict (.cons "b" (.int 1) .nil)) .nil)
      (.cons "a" (.dict (.cons "b" (.int 2) .nil)) .nil) =
      [.watchCalled 2 (.int 1) (.int 2)] := by
  have h := C10_watch_replaces ConfigState.empty "a.b" 1 2
    (by intro q hq; simp [ConfigState.empty] at hq) (by decide)
  exact ⟨h.2.2 _ _ (.int 1) (.int 2) rfl rfl rfl, h.1, rfl⟩

end CCConfig
